import Mathlib

/-!
Shallow embedding of the document ingestion-and-retrieval pipeline of the
AI-Agent-Chatbot repository (backend/services: vector_service.py,
document_service.py, chat_service.py, embedding_service.py), together with
theorems settling the specification claims about it.

Python strings are modelled as `List Char` (`PyStr`), Python dicts used as
chunk metadata as association lists, embedding vectors as `List ℤ` (the
code stores float32 vectors; we use exact integer-valued coordinates, which
keeps every distance computation exact and decidable), and the FAISS
`IndexFlatL2` as the list of its stored vectors in insertion order, with
`ntotal` the length of that list.  External collaborators (the OpenAI
embedding provider, the langchain text splitter, docling/OCR extraction)
are passed in as explicit function or `Except` parameters, mirroring the
spec's treatment of them as black boxes.
-/

/-- Python `str` modelled as a list of characters. -/
abbrev PyStr := List Char

/-- Characters Python's `str.strip` / `str.isspace` treat as whitespace
(for the ASCII range relevant here this agrees with `Char.isWhitespace`). -/
def pyIsSpace (c : Char) : Bool := c.isWhitespace

/-- Python `s.strip()`: drop whitespace from both ends. -/
def pyStrip (s : PyStr) : PyStr :=
  ((s.dropWhile pyIsSpace).reverse.dropWhile pyIsSpace).reverse

/-- Split a string at every newline character, keeping empty segments
(`n` separators yield `n+1` segments), as Python `s.split("\n")` does. -/
def splitNL : PyStr → List PyStr
  | [] => [[]]
  | c :: rest =>
    if c = '\n' then [] :: splitNL rest
    else
      match splitNL rest with
      | [] => [[c]]
      | seg :: segs => (c :: seg) :: segs

/-- Python `s.splitlines()` restricted to `\n` line endings: like
`splitNL` but the empty string gives `[]` and a trailing newline does not
produce a final empty segment. -/
def pySplitlines (s : PyStr) : List PyStr :=
  if s = [] then []
  else if s.getLast? = some '\n' then (splitNL s).dropLast
  else splitNL s

/-- Python `sep.join(parts)`. -/
def pyJoin (sep : PyStr) (parts : List PyStr) : PyStr :=
  List.intercalate sep parts

/-- A value stored in a chunk-metadata dict: the code stores strings and
ints there. -/
inductive MetaVal where
  | str : PyStr → MetaVal
  | nat : Nat → MetaVal
deriving DecidableEq, Repr

/-- Metadata dicts are association lists from keys to values. -/
abbrev MetaDict := List (PyStr × MetaVal)

/-- Python `d.get(key)`: first binding of `key`, `none` when absent. -/
def metaGet (d : MetaDict) (key : PyStr) : Option MetaVal :=
  match d with
  | [] => none
  | (k, v) :: rest => if k = key then some v else metaGet rest key

/-- `langchain.docstore.document.Document`: a chunk with text payload and
metadata dict. -/
structure PyDocument where
  page_content : PyStr
  metadata : MetaDict
deriving DecidableEq, Repr

namespace ChatService

/-- One entry of a session's `history` list: a dict
`{'type': 'human'|'ai', 'content': ...}`. -/
structure HistoryEntry where
  type : PyStr
  content : PyStr
deriving DecidableEq, Repr

/-- A `ChatService` session: `{'history': [...], 'created_at': ...}`. -/
structure Session where
  history : List HistoryEntry
  created_at : PyStr
deriving DecidableEq, Repr

/-- chat_service.py lines 93-95: `if len(history) > 20: history =
history[-20:]` (the Python slice `[-20:]` keeps the last 20 entries). -/
def truncate_history (h2 : List HistoryEntry) : List HistoryEntry :=
  if h2.length > 20 then h2.drop (h2.length - 20) else h2

/-- The session-history update performed by `ChatService.get_response`
(chat_service.py lines 83-95) once an answer has been generated: append
the human turn, append the ai turn, then truncate to the last 20
entries. -/
def get_response_update_history (history : List HistoryEntry)
    (message answer : PyStr) : List HistoryEntry :=
  truncate_history (history ++ [⟨"human".data, message⟩, ⟨"ai".data, answer⟩])

/-- `ChatService.get_session_info`: message count and creation time of an
existing session, `None` for an unknown id.  Sessions are modelled as a
lookup function from session ids. -/
def get_session_info (sessions : PyStr → Option Session) (session_id : PyStr) :
    Option (Nat × PyStr) :=
  match sessions session_id with
  | some s => some (s.history.length, s.created_at)
  | none => none

end ChatService

namespace DocumentService

/-- `DocumentService.is_scanned_pdf` (document_service.py lines 90-102):
walk the pages in order; as soon as a page's extracted text layer
(`page.get_text()`) strips to something non-empty, return `False`; if no
page does, return `True`.  A PDF is modelled by the list of its per-page
extracted texts. -/
def is_scanned_pdf : List PyStr → Bool
  | [] => true
  | page :: rest => if pyStrip page ≠ [] then false else is_scanned_pdf rest

/-- `DocumentService.process_pdf` (document_service.py lines 105-116):
route the file to the OCR fallback exactly when `is_scanned_pdf` holds,
and to the direct markdown extraction otherwise.  The two extraction
collaborators are passed as parameters. -/
def process_pdf {α : Type} (ocr_and_replace_pdf get_markdown : List PyStr → α)
    (pages : List PyStr) : α :=
  if is_scanned_pdf pages then ocr_and_replace_pdf pages else get_markdown pages

end DocumentService

/-- Python `str(n)` for a natural number. -/
def pyNatRepr (n : Nat) : PyStr := (Nat.repr n).data

namespace VectorService

/-- An embedding vector (the code stores float32; we use exact
integer-valued coordinates). -/
abbrev Vec := List ℤ

/-- The state of a `VectorService`: the in-memory FAISS index (`None`
until first use; otherwise the list of stored vectors, whose length is
`ntotal`), the in-memory chunk store `self.documents`, and the two
persisted artifacts (`none` = file absent). -/
structure Store where
  index : Option (List Vec)
  documents : List PyDocument
  diskIndex : Option (List Vec)
  diskDocs : Option (List PyDocument)
deriving DecidableEq, Repr

/-- `VectorService._save_index` (vector_service.py lines 105-115): write
the FAISS index file only when the index exists, always rewrite the
pickled document list. -/
def _save_index (s : Store) : Store :=
  { s with
    diskIndex := match s.index with
      | some vecs => some vecs
      | none => s.diskIndex
    diskDocs := some s.documents }

/-- `VectorService.add_documents` (vector_service.py lines 25-57).  The
embedding collaborator's reply (`await embed_documents(texts)`) is passed
in as an `Except`: `.error` models the provider raising.  On success the
vectors are appended to the index (created on first use), the chunks to
the store, and both are persisted; on embedding failure the exception is
re-raised with no state change. -/
def add_documents (s : Store) (embed_documents : Except PyStr (List Vec))
    (documents : List PyDocument) : Store × Except PyStr PyStr :=
  if documents.isEmpty then (s, .ok "No documents to add".data)
  else
    match embed_documents with
    | .error e => (s, .error e)
    | .ok embeddings =>
      let index' := match s.index with
        | none => embeddings
        | some vecs => vecs ++ embeddings
      let s' := _save_index { s with
        index := some index'
        documents := s.documents ++ documents }
      (s', .ok ("Added ".data ++ pyNatRepr documents.length
                ++ " documents to vector store".data))

/-- `VectorService._matches_filters` (vector_service.py lines 98-103):
every filter key must be present in the metadata with the same value. -/
def _matches_filters (metadata : MetaDict) (filters : List (PyStr × MetaVal)) : Bool :=
  filters.all fun kv =>
    match metaGet metadata kv.1 with
    | none => false
    | some v => v = kv.2

/-- Squared Euclidean distance, the metric of `faiss.IndexFlatL2`. -/
def sqDistL2 (q v : Vec) : ℤ := (List.zipWith (fun a b => (a - b) * (a - b)) q v).sum

/-- Insert a (distance, position) pair into a list kept sorted by
ascending distance, ties broken by the smaller position. -/
def insertRanked (x : ℤ × Nat) : List (ℤ × Nat) → List (ℤ × Nat)
  | [] => [x]
  | y :: ys =>
    if x.1 < y.1 ∨ (x.1 = y.1 ∧ x.2 < y.2) then x :: y :: ys
    else y :: insertRanked x ys

/-- All stored vectors ranked by distance to the query, closest first. -/
def rankAll (vecs : List Vec) (q : Vec) : List (ℤ × Nat) :=
  (vecs.enum.map fun iv => (sqDistL2 q iv.2, iv.1)).foldr insertRanked []

/-- `self.index.search(query_vector, k)` on a FAISS `IndexFlatL2` holding
`vecs`: the distances and labels of the `k` nearest stored vectors, each
returned as a 2-D array of shape `(1, k)` (one row per query vector). -/
def index_search (vecs : List Vec) (q : Vec) (k : Nat) :
    List (List ℤ) × List (List Nat) :=
  let ranked := (rankAll vecs q).take k
  ([ranked.map Prod.fst], [ranked.map Prod.snd])

/-- Python `int(x)` applied to a numpy array: succeeds only on a size-1
array, raising `TypeError` otherwise. -/
def npIntOfRow : List Nat → Option Nat
  | [x] => some x
  | _ => none

/-- One search result dict
`{'document', 'similarity_score', 'content', 'metadata'}`. -/
structure SearchResult where
  document : PyDocument
  similarity_score : ℤ
  content : PyStr
  metadata : MetaDict
deriving DecidableEq, Repr

/-- The result loop of `similarity_search` (vector_service.py lines
74-89): `for score, idx in zip(scores, indices)`.  Because of the
`indices = all_indices` slip the second component of each pair is a whole
row of the `(1, k)` label array, and `int(idx)` raises (`none`) unless
that row has exactly one element; an exception aborts the loop and is
caught by the surrounding `except`, which returns `[]`. -/
def search_loop (documents : List PyDocument) (filters : List (PyStr × MetaVal)) :
    List (ℤ × List Nat) → Option (List SearchResult)
  | [] => some []
  | (score, idxRow) :: rest =>
    match npIntOfRow idxRow with
    | none => none
    | some idx =>
      match documents[idx]? with
      | none => search_loop documents filters rest
      | some doc =>
        if !filters.isEmpty && !_matches_filters doc.metadata filters then
          search_loop documents filters rest
        else
          match search_loop documents filters rest with
          | none => none
          | some rs => some (⟨doc, score, doc.page_content, doc.metadata⟩ :: rs)

/-- `VectorService.similarity_search` (vector_service.py lines 59-95).
The query embedding (`await embed_query(query)`) is passed in as an
`Except`.  If the store is empty the function returns `[]` before
touching the embedding collaborator.  Otherwise the FAISS index is
searched for `min(k, ntotal)` neighbours; `scores = distances[0]` takes
row 0 of the distance array but `indices = all_indices` keeps the whole
`(1, k)` label array, exactly as in the source; any exception inside the
`try` (a failing embedding call, or `int()` applied to a row of length
≠ 1) is caught and `[]` is returned. -/
def similarity_search (s : Store) (embed_query : Except PyStr Vec) (k : Nat)
    (filters : List (PyStr × MetaVal)) : List SearchResult :=
  match s.index with
  | none => []
  | some vecs =>
    if vecs.length = 0 then []
    else
      match embed_query with
      | .error _ => []
      | .ok query_vector =>
        let searched := index_search vecs query_vector (min k vecs.length)
        let scores := searched.1.headD []
        let indices := searched.2
        match search_loop s.documents filters (List.zip scores indices) with
        | none => []
        | some results => results

/-- `VectorService.clear_documents` (vector_service.py lines 138-156).
With a `document_id`, the matching chunks are filtered out of
`self.documents`; the source then runs `if removed_count > 0:
self._rebuild_index()`, but `_rebuild_index` is an `async def` and the
call site is a synchronous method that does not await it, so the
coroutine object is created and never executed: neither the in-memory
index nor the persisted files change.  Without a `document_id`,
everything is cleared and the empty state saved (`_save_index` skips the
index file because the index is `None`). -/
def clear_documents (s : Store) (document_id : Option PyStr) : Store × PyStr :=
  match document_id with
  | some did =>
    let docs' := s.documents.filter
      fun doc => decide (metaGet doc.metadata "document_id".data ≠ some (.str did))
    let removed := s.documents.length - docs'.length
    ({ s with documents := docs' },
     "Removed ".data ++ pyNatRepr removed ++ " chunks for document ".data ++ did)
  | none =>
    (_save_index { s with documents := [], index := none },
     "Cleared all documents".data)

/-- `VectorService._rebuild_index` (vector_service.py lines 158-182): the
body of the coroutine, i.e. what a caller that actually awaited it would
observe.  With no documents left the index is dropped and the empty state
saved; otherwise all remaining contents are re-embedded (the collaborator
reply is the `Except` parameter) into a fresh index which is saved; an
embedding failure is caught and swallowed, leaving the state unchanged. -/
def _rebuild_index (s : Store) (embed_documents : Except PyStr (List Vec)) : Store :=
  if s.documents.isEmpty then _save_index { s with index := none }
  else
    match embed_documents with
    | .error _ => s
    | .ok embeddings => _save_index { s with index := some embeddings }

/-- `VectorService._load_index` (vector_service.py lines 117-128), run at
construction on the on-disk state.  Each file is `none` when missing and
`some none` when present but unparseable.  Only when both files exist is
a load attempted; a parse failure is caught and resets to the empty
state; note that no index/document length consistency check is made.
Returns the resulting `(self.index, self.documents)` pair. -/
def _load_index (indexFile : Option (Option (List Vec)))
    (docsFile : Option (Option (List PyDocument))) :
    Option (List Vec) × List PyDocument :=
  match indexFile, docsFile with
  | some fi, some fd =>
    match fi, fd with
    | some vecs, some docs => (some vecs, docs)
    | _, _ => (none, [])
  | _, _ => (none, [])

end VectorService

/-- A prose chunk of document `dA` whose content "alpha" is used as a
search query; carries a `tag` metadata key for filter scenarios. -/
def docA : PyDocument :=
  ⟨"alpha".data, [("document_id".data, .str "dA".data), ("tag".data, .str "x".data)]⟩

/-- A second chunk, of document `dB`, with the same `tag` value. -/
def docB : PyDocument :=
  ⟨"beta".data, [("document_id".data, .str "dB".data), ("tag".data, .str "x".data)]⟩

/-- A chunk of document `d1`. -/
def d1chunk : PyDocument := ⟨"hello".data, [("document_id".data, .str "d1".data)]⟩

namespace DocumentService

/-- Python `range(0, stop, step)` for a positive `step` (Python raises
`ValueError` when `step = 0`; the theorems below assume `1 ≤ step`): the
starts `0, step, 2·step, …` below `stop`, of which there are
`⌈stop/step⌉ = (stop + step - 1) / step`. -/
def pyRange0 (stop step : Nat) : List Nat :=
  (List.range ((stop + step - 1) / step)).map (· * step)

/-- `DocumentService.create_text_chunks` (document_service.py lines
235-265).  The `RecursiveCharacterTextSplitter.split_text` collaborator
(an external langchain class configured with the repository's chunk
size/overlap/separators) is a parameter; the repository code is the rest:
return `[]` for whitespace-only input, then keep each non-whitespace
piece, numbered by its position `i` in the splitter output, as a
`Document` with the metadata dict built on lines 255-261. -/
def create_text_chunks (split_text : PyStr → List PyStr)
    (text_content document_id filename : PyStr) : List PyDocument :=
  if pyStrip text_content = [] then []
  else
    (split_text text_content).enum.filterMap fun ic =>
      if pyStrip ic.2 ≠ [] then
        some ⟨ic.2,
          [("document_id".data, .str document_id),
           ("filename".data, .str filename),
           ("chunk_index".data, .nat ic.1),
           ("chunk_type".data, .str "text".data),
           ("chunk_id".data, .str (document_id ++ "_text_".data ++ pyNatRepr ic.1))]⟩
      else none

/-- One table chunk of `split_markdown_table_by_rows` (document_service.py
lines 297-314): the block `data_rows[start : start + rows_per_chunk]`,
prefixed with the header and delimiter rows when requested, with the
metadata dict of lines 304-313. -/
def table_chunk (header delimiter : PyStr) (data_rows : List PyStr)
    (document_id filename : PyStr) (rows_per_chunk : Nat) (keep_header : Bool)
    (start : Nat) : PyDocument :=
  let block := (data_rows.drop start).take rows_per_chunk
  ⟨if keep_header then pyJoin "\n".data ([header, delimiter] ++ block)
    else pyJoin "\n".data block,
   [("document_id".data, .str document_id),
    ("filename".data, .str filename),
    ("chunk_type".data, .str "table_type".data),
    ("chunk_id".data, .str (document_id ++ "_text_".data ++ pyNatRepr start)),
    ("chunk_index".data, .nat start),
    ("row_start".data, .nat start),
    ("row_end".data, .nat (start + block.length - 1)),
    ("rows_per_chunk".data, .nat rows_per_chunk)]⟩

/-- `DocumentService.split_markdown_table_by_rows` (document_service.py
lines 267-316): keep the non-blank lines of the stripped text; with fewer
than 2 of them return the whole text as a single `{"split": "none"}`
document; with no data rows return a single header-only document;
otherwise one `table_chunk` per `start in range(0, len(data_rows),
rows_per_chunk)`. -/
def split_markdown_table_by_rows (text_content document_id filename : PyStr)
    (rows_per_chunk : Nat) (keep_header_in_each_chunk : Bool := true) :
    List PyDocument :=
  match (pySplitlines (pyStrip text_content)).filter
      (fun ln => decide (pyStrip ln ≠ [])) with
  | [] => [⟨text_content, [("split".data, MetaVal.str "none".data)]⟩]
  | [_] => [⟨text_content, [("split".data, MetaVal.str "none".data)]⟩]
  | header :: delimiter :: data_rows =>
    if data_rows.isEmpty then
      [⟨pyJoin "\n".data [header, delimiter],
        [("split".data, MetaVal.str "header_only".data)]⟩]
    else
      (pyRange0 data_rows.length rows_per_chunk).map
        (table_chunk header delimiter data_rows document_id filename
          rows_per_chunk keep_header_in_each_chunk)

end DocumentService

/-- C9: `is_scanned_pdf` returns `False` iff some page yields
non-whitespace extractable text, `True` iff every page strips to empty;
`process_pdf` uses the OCR fallback exactly in the `True` case and the
direct text-extraction path otherwise. -/
theorem is_scanned_pdf_routes_ocr {α : Type}
    (ocr_and_replace_pdf get_markdown : List PyStr → α) (pages : List PyStr) :
    (DocumentService.is_scanned_pdf pages = false ↔ ∃ p ∈ pages, pyStrip p ≠ [])
    ∧ (DocumentService.is_scanned_pdf pages = true ↔ ∀ p ∈ pages, pyStrip p = [])
    ∧ (DocumentService.is_scanned_pdf pages = true →
        DocumentService.process_pdf ocr_and_replace_pdf get_markdown pages =
          ocr_and_replace_pdf pages)
    ∧ (DocumentService.is_scanned_pdf pages = false →
        DocumentService.process_pdf ocr_and_replace_pdf get_markdown pages =
          get_markdown pages) := by
  have h1 : DocumentService.is_scanned_pdf pages = false ↔
      ∃ p ∈ pages, pyStrip p ≠ [] := by
    induction pages with
    | nil => simp [DocumentService.is_scanned_pdf]
    | cons p ps ih =>
      by_cases hp : pyStrip p = [] <;>
        simp [DocumentService.is_scanned_pdf, hp, ih]
  refine ⟨h1, ?_, ?_, ?_⟩
  · constructor
    · intro ht p hp
      by_contra hne
      rw [h1.mpr ⟨p, hp, hne⟩] at ht
      exact Bool.false_ne_true ht
    · intro hall
      cases hsc : DocumentService.is_scanned_pdf pages with
      | false =>
        obtain ⟨p, hp, hne⟩ := h1.mp hsc
        exact absurd (hall p hp) hne
      | true => rfl
  · intro ht
    simp [DocumentService.process_pdf, ht]
  · intro hf
    simp [DocumentService.process_pdf, hf]

/-- Witness for `is_scanned_pdf_routes_ocr` at a concrete one-page PDF with
real text: detected as not scanned, routed to direct extraction. -/
theorem is_scanned_pdf_routes_ocr_witness :
    DocumentService.is_scanned_pdf ["a".data] = false
    ∧ DocumentService.process_pdf (fun _ => (0 : Nat)) (fun _ => 1) ["a".data] = 1 :=
  ⟨by decide,
   (is_scanned_pdf_routes_ocr (fun _ => (0 : Nat)) (fun _ => 1) ["a".data]).2.2.2
     (by decide)⟩

/-- C8: recording one exchange appends the human turn then the ai turn and
keeps only the 20 most recent entries, dropping the oldest first; a history
within the 20-entry bound stays within it; and a fresh session after 11
recorded exchanges reports `message_count` 20, not 22. -/
theorem get_response_history_fifo_window (h : List ChatService.HistoryEntry)
    (m a : PyStr) :
    ChatService.get_response_update_history h m a =
      (h ++ [ChatService.HistoryEntry.mk "human".data m,
             ChatService.HistoryEntry.mk "ai".data a]).drop ((h.length + 2) - 20)
    ∧ (h.length ≤ 20 → (ChatService.get_response_update_history h m a).length ≤ 20)
    ∧ ChatService.get_session_info
        (fun sid => if sid = "s".data then
            some ⟨(fun hh => ChatService.get_response_update_history hh "u".data "v".data)^[11] [],
                  "t".data⟩
          else none) "s".data = some (20, "t".data) := by
  have hlen : (h ++ [ChatService.HistoryEntry.mk "human".data m,
      ChatService.HistoryEntry.mk "ai".data a]).length = h.length + 2 := by
    simp
  refine ⟨?_, ?_, ?_⟩
  · unfold ChatService.get_response_update_history ChatService.truncate_history
    split
    · next hgt => rw [hlen]
    · next hle =>
      rw [hlen] at hle
      have h0 : h.length + 2 - 20 = 0 := by omega
      rw [h0, List.drop_zero]
  · intro hle
    unfold ChatService.get_response_update_history ChatService.truncate_history
    split
    · next hgt =>
      rw [List.length_drop, hlen]
      omega
    · next hge =>
      rw [hlen] at hge ⊢
      omega
  · decide

/-- Witness for `get_response_history_fifo_window`: a history of 19 entries
(within the bound) stays within the bound after recording an exchange. -/
theorem get_response_history_fifo_window_witness :
    (ChatService.get_response_update_history
        (List.replicate 19 ⟨"human".data, "x".data⟩) "u".data "v".data).length ≤ 20 :=
  (get_response_history_fifo_window
      (List.replicate 19 ⟨"human".data, "x".data⟩) "u".data "v".data).2.1
    (by decide)

/-- C3: if the embedding collaborator fails, `add_documents` re-raises the
error and leaves the whole state — in-memory chunk store and index, and
both persisted files — exactly as it was: no partial commit. -/
theorem add_documents_aborts_on_embedding_failure
    (s : VectorService.Store) (documents : List PyDocument) (e : PyStr)
    (hne : documents ≠ []) :
    VectorService.add_documents s (.error e) documents = (s, .error e) := by
  have h : documents.isEmpty = false := by
    cases documents with
    | nil => exact absurd rfl hne
    | cons a l => rfl
  simp [VectorService.add_documents, h]

/-- Witness for `add_documents_aborts_on_embedding_failure`: a failing
embedding call on a one-chunk add leaves an empty store untouched. -/
theorem add_documents_aborts_on_embedding_failure_witness :
    VectorService.add_documents ⟨none, [], none, none⟩ (.error "boom".data) [d1chunk]
      = (⟨none, [], none, none⟩, .error "boom".data) :=
  add_documents_aborts_on_embedding_failure ⟨none, [], none, none⟩ [d1chunk]
    "boom".data (by decide)

/-- C5: on an empty store (no index yet, or an index holding zero
vectors) `similarity_search` returns `[]` for every query embedding
outcome — including a failing embedding collaborator, which shows the
collaborator is never consulted — every `k` and every filter set. -/
theorem similarity_search_empty_store_returns_empty
    (s : VectorService.Store) (embed_query : Except PyStr VectorService.Vec)
    (k : Nat) (filters : List (PyStr × MetaVal))
    (h : s.index = none ∨ s.index = some []) :
    VectorService.similarity_search s embed_query k filters = [] := by
  rcases h with h | h <;> simp [VectorService.similarity_search, h]

/-- Witness for `similarity_search_empty_store_returns_empty`: a fresh
store queried while the embedding collaborator raises still yields `[]`. -/
theorem similarity_search_empty_store_returns_empty_witness :
    VectorService.similarity_search ⟨none, [], none, none⟩
      (.error "no embedder".data) 5 [] = [] :=
  similarity_search_empty_store_returns_empty ⟨none, [], none, none⟩
    (.error "no embedder".data) 5 [] (Or.inl rfl)

/-- C1 failing input: add one chunk of document `d1` (one 1-dimensional
vector enters the index), then `clear_documents("d1")`.  The chunk is
removed but the index still holds its vector, because
`self._rebuild_index()` on line 148 creates a coroutine that is never
awaited: the store ends with 0 chunks and `ntotal = 1`, violating the
`len(documents) == index.ntotal` invariant the claim states. -/
theorem clear_documents_leaves_index_stale :
    let s0 : VectorService.Store := ⟨none, [], none, none⟩
    let s1 := (VectorService.add_documents s0 (.ok [[1]]) [d1chunk]).1
    let s2 := (VectorService.clear_documents s1 (some "d1".data)).1
    s1.documents.length = 1 ∧ s1.index = some [[1]]
    ∧ s2.documents.length = 0 ∧ s2.index = some [[1]] := by decide

/-- C2 failing input: a store of two chunks with distinct embeddings,
queried with the exact content of the first chunk (whose query vector
equals its stored vector) and `k = 2`.  The claim says the matching chunk
comes back with the best score; instead the result is `[]`, because
`indices = all_indices` keeps the `(1, 2)`-shaped label array, `zip`
pairs the first score with the whole row, and `int(row)` raises a
`TypeError` that the `except` turns into `[]`.  With `k = 1` (a length-1
row) the intended behaviour shows: the matching chunk is returned with
distance 0. -/
theorem similarity_search_k2_shape_bug_returns_empty :
    let s : VectorService.Store := ⟨some [[0], [1]], [docA, docB], none, none⟩
    VectorService.similarity_search s (.ok [0]) 2 [] = []
    ∧ VectorService.similarity_search s (.ok [0]) 1 [] =
        [⟨docA, 0, "alpha".data, docA.metadata⟩] := by decide

/-- C10 failing input: the same two-chunk store, both chunks carrying
`tag = "x"`, searched with filter `{tag: "x"}` and `k = 2`: the claim's
reading (retrieved results are rejected only on a metadata mismatch)
would return both chunks, but the result is `[]` — the same unsliced
label array makes `int()` raise before any filter is applied.  The
`k = 1` cases show the per-result filter mechanism itself: the nearest
chunk is kept when its metadata matches and dropped (without backfilling
the next neighbour) when it does not. -/
theorem similarity_search_filters_results_lost :
    let s : VectorService.Store := ⟨some [[0], [1]], [docA, docB], none, none⟩
    VectorService._matches_filters docA.metadata [("tag".data, .str "x".data)] = true
    ∧ VectorService._matches_filters docB.metadata [("tag".data, .str "x".data)] = true
    ∧ VectorService.similarity_search s (.ok [0]) 2 [("tag".data, .str "x".data)] = []
    ∧ VectorService.similarity_search s (.ok [0]) 1 [("tag".data, .str "x".data)] =
        [⟨docA, 0, "alpha".data, docA.metadata⟩]
    ∧ VectorService.similarity_search s (.ok [0]) 1 [("tag".data, .str "y".data)] = [] := by
  decide

/-- C6 counterexample: a persisted pair in which the index file parses to
two vectors while the chunk store parses to one chunk.  The claim says
such a mismatched pair is treated as corrupted and discarded (start
empty); instead `_load_index` performs no consistency check and serves
the pair verbatim. -/
theorem load_index_serves_mismatched_pair :
    VectorService._load_index (some (some [[0], [0]])) (some (some [d1chunk]))
      = (some [[0], [0]], [d1chunk])
    ∧ ([[0], [0]] : List VectorService.Vec).length ≠ [d1chunk].length
    ∧ VectorService._load_index (some (some [[0], [0]])) (some (some [d1chunk]))
        ≠ (none, []) := by decide

/-- C6 as amended: on construction the store loads whatever persisted
pair parses — with no index/chunk-store length check — and starts empty
whenever either file is missing or either file fails to parse. -/
theorem load_index_loads_pair_or_starts_empty
    (indexFile : Option (Option (List VectorService.Vec)))
    (docsFile : Option (Option (List PyDocument))) :
    (∀ vecs docs, indexFile = some (some vecs) → docsFile = some (some docs) →
        VectorService._load_index indexFile docsFile = (some vecs, docs))
    ∧ ((indexFile = none ∨ docsFile = none
        ∨ indexFile = some none ∨ docsFile = some none) →
        VectorService._load_index indexFile docsFile = (none, [])) := by
  refine ⟨?_, ?_⟩
  · rintro vecs docs rfl rfl
    rfl
  · rintro (rfl | rfl | rfl | rfl)
    · rfl
    · rcases indexFile with _ | fi
      · rfl
      · rcases fi with _ | v <;> rfl
    · rcases docsFile with _ | fd
      · rfl
      · rcases fd with _ | d <;> rfl
    · rcases indexFile with _ | fi
      · rfl
      · rcases fi with _ | v <;> rfl

/-- Witness for `load_index_loads_pair_or_starts_empty`: a consistent
persisted pair is loaded verbatim, and a fresh environment (no files)
starts empty. -/
theorem load_index_loads_pair_or_starts_empty_witness :
    VectorService._load_index (some (some [[1]])) (some (some [d1chunk]))
      = (some [[1]], [d1chunk])
    ∧ VectorService._load_index none none = (none, []) :=
  ⟨(load_index_loads_pair_or_starts_empty (some (some [[1]])) (some (some [d1chunk]))).1
      [[1]] [d1chunk] rfl rfl,
   (load_index_loads_pair_or_starts_empty none none).2 (Or.inl rfl)⟩

/-- `"\n".join` on at least two parts: the first part followed by the
separator and the join of the rest. -/
theorem pyJoin_cons_cons (sep x y : PyStr) (l : List PyStr) :
    pyJoin sep (x :: y :: l) = x ++ sep ++ pyJoin sep (y :: l) := by
  simp [pyJoin, List.intercalate, List.intersperse_cons_cons]

/-- C4: on a table with header, separator and `N ≥ 1` non-blank data rows
and block size `B ≥ 1`, `split_markdown_table_by_rows` returns exactly
`⌈N/B⌉` chunks, each beginning with the original header and separator
lines and carrying `row_start`/`row_end`/`rows_per_chunk` metadata;
fewer than 2 non-blank lines give one chunk holding the whole text, and
header+separator alone give a single header-only chunk. -/
theorem split_markdown_table_by_rows_spec
    (text document_id filename : PyStr) (B : Nat) (hB : 0 < B) :
    (((pySplitlines (pyStrip text)).filter (fun ln => decide (pyStrip ln ≠ []))).length < 2 →
      DocumentService.split_markdown_table_by_rows text document_id filename B true
        = [⟨text, [("split".data, MetaVal.str "none".data)]⟩])
    ∧ (∀ header delimiter,
        (pySplitlines (pyStrip text)).filter (fun ln => decide (pyStrip ln ≠ []))
          = [header, delimiter] →
        DocumentService.split_markdown_table_by_rows text document_id filename B true
          = [⟨pyJoin "\n".data [header, delimiter],
              [("split".data, MetaVal.str "header_only".data)]⟩])
    ∧ (∀ header delimiter data_rows,
        (pySplitlines (pyStrip text)).filter (fun ln => decide (pyStrip ln ≠ []))
          = header :: delimiter :: data_rows →
        data_rows ≠ [] →
        (DocumentService.split_markdown_table_by_rows text document_id filename B true).length
            = (data_rows.length + B - 1) / B
        ∧ ∀ c ∈ DocumentService.split_markdown_table_by_rows text document_id filename B true,
            ∃ start, start < data_rows.length
              ∧ (data_rows.drop start).take B ≠ []
              ∧ c.page_content = header ++ "\n".data ++ delimiter ++ "\n".data
                  ++ pyJoin "\n".data ((data_rows.drop start).take B)
              ∧ metaGet c.metadata "row_start".data = some (.nat start)
              ∧ metaGet c.metadata "row_end".data
                  = some (.nat (start + ((data_rows.drop start).take B).length - 1))
              ∧ metaGet c.metadata "rows_per_chunk".data = some (.nat B)) := by
  refine ⟨?_, ?_, ?_⟩
  · intro hlt
    rcases hls : (pySplitlines (pyStrip text)).filter (fun ln => decide (pyStrip ln ≠ [])) with
      _ | ⟨a, _ | ⟨b, rest⟩⟩
    · unfold DocumentService.split_markdown_table_by_rows
      rw [hls]
    · unfold DocumentService.split_markdown_table_by_rows
      rw [hls]
    · rw [hls] at hlt
      simp at hlt
      omega
  · intro header delimiter h
    unfold DocumentService.split_markdown_table_by_rows
    rw [h]
    rfl
  · intro header delimiter data_rows h hne
    obtain ⟨r, rs, rfl⟩ := List.exists_cons_of_ne_nil hne
    have hout : DocumentService.split_markdown_table_by_rows text document_id filename B true
        = (DocumentService.pyRange0 (r :: rs : List PyStr).length B).map
            (DocumentService.table_chunk header delimiter (r :: rs) document_id
              filename B true) := by
      unfold DocumentService.split_markdown_table_by_rows
      rw [h]
      rfl
    rw [hout]
    constructor
    · simp [DocumentService.pyRange0]
    · intro c hc
      rw [List.mem_map] at hc
      obtain ⟨start, hstart, rfl⟩ := hc
      rw [DocumentService.pyRange0, List.mem_map] at hstart
      obtain ⟨i, hi, rfl⟩ := hstart
      rw [List.mem_range] at hi
      have hib : i * B < (r :: rs : List PyStr).length := by
        have h1 : (i + 1) * B ≤ (r :: rs : List PyStr).length + B - 1 :=
          (Nat.le_div_iff_mul_le hB).mp hi
        have h2 : (i + 1) * B = i * B + B := by ring
        omega
      have hblock : (((r :: rs : List PyStr).drop (i * B)).take B) ≠ [] := by
        rw [← List.length_pos, List.length_take, List.length_drop]
        omega
      refine ⟨i * B, hib, hblock, ?_, rfl, rfl, rfl⟩
      obtain ⟨b0, bs, hb⟩ := List.exists_cons_of_ne_nil hblock
      simp only [DocumentService.table_chunk]
      rw [hb]
      simp [pyJoin_cons_cons, List.append_assoc]

/-- Witness for `split_markdown_table_by_rows_spec`: the table
`h|x / -|- / a / b / c` with `rows_per_chunk = 2` yields `⌈3/2⌉ = 2`
chunks. -/
theorem split_markdown_table_by_rows_spec_witness :
    (DocumentService.split_markdown_table_by_rows "h|x\n-|-\na\nb\nc".data
        "d".data "f".data 2 true).length = 2 :=
  ((split_markdown_table_by_rows_spec "h|x\n-|-\na\nb\nc".data "d".data "f".data 2
      (by decide)).2.2 "h|x".data "-|-".data ["a".data, "b".data, "c".data]
      (by decide) (by decide)).1


theorem pyStrip_eq_nil_iff (l : PyStr) :
    pyStrip l = [] ↔ ∀ c ∈ l, pyIsSpace c = true := by
  unfold pyStrip
  rw [List.reverse_eq_nil_iff, List.dropWhile_eq_nil_iff]
  constructor
  · intro h c hc
    by_cases hin : c ∈ l.dropWhile pyIsSpace
    · exact h c (by simpa using hin)
    · have hsplit := List.takeWhile_append_dropWhile (p := pyIsSpace) (l := l)
      rw [← hsplit] at hc
      rcases List.mem_append.mp hc with h1 | h2
      · exact List.mem_takeWhile_imp h1
      · exact absurd h2 hin
  · intro h c hc
    rw [List.mem_reverse] at hc
    exact h c ((List.dropWhile_sublist (p := pyIsSpace) (l := l)).subset hc)

theorem digitChar_inj_lt10 : ∀ d1 < 10, ∀ d2 < 10,
    Nat.digitChar d1 = Nat.digitChar d2 → d1 = d2 := by decide

theorem toDigitsCore_eq_digits (fuel : Nat) : ∀ n ds, 0 < n → n ≤ fuel →
    Nat.toDigitsCore 10 fuel n ds
      = ((Nat.digits 10 n).map Nat.digitChar).reverse ++ ds := by
  induction fuel with
  | zero => intro n ds h1 h2; omega
  | succ f ih =>
    intro n ds h1 h2
    rw [Nat.toDigitsCore]
    have hd : Nat.digits 10 n = n % 10 :: Nat.digits 10 (n / 10) :=
      Nat.digits_def' (by norm_num) h1
    by_cases h0 : n / 10 = 0
    · simp [h0, hd, Nat.digits_zero]
    · have hlt : n / 10 ≤ f := by
        have := Nat.div_lt_self h1 (by norm_num : 1 < 10)
        omega
      simp only [h0, if_false]
      rw [ih (n / 10) _ (Nat.pos_of_ne_zero h0) hlt, hd]
      simp

theorem pyNatRepr_eq (n : Nat) :
    pyNatRepr n = if n = 0 then ['0']
      else ((Nat.digits 10 n).map Nat.digitChar).reverse := by
  by_cases h : n = 0
  · subst h; rfl
  · have h2 : pyNatRepr n = Nat.toDigitsCore 10 (n + 1) n [] := rfl
    rw [h2, toDigitsCore_eq_digits (n + 1) n [] (Nat.pos_of_ne_zero h) (by omega)]
    simp [h]

theorem digit_lists_map_inj : ∀ l1 l2 : List Nat, (∀ d ∈ l1, d < 10) → (∀ d ∈ l2, d < 10) →
    l1.map Nat.digitChar = l2.map Nat.digitChar → l1 = l2 := by
  intro l1
  induction l1 with
  | nil => intro l2 _ _ h; cases l2 <;> simp_all
  | cons d t ih =>
    intro l2 h1 h2 h
    cases l2 with
    | nil => simp at h
    | cons d2 t2 =>
      simp only [List.map_cons, List.cons.injEq] at h
      have hd : d = d2 := digitChar_inj_lt10 d (h1 d (by simp)) d2 (h2 d2 (by simp)) h.1
      have ht : t = t2 := ih t2 (fun x hx => h1 x (by simp [hx])) (fun x hx => h2 x (by simp [hx])) h.2
      rw [hd, ht]

theorem pyNatRepr_injective : Function.Injective pyNatRepr := by
  intro n m h
  rw [pyNatRepr_eq, pyNatRepr_eq] at h
  have key : ∀ k : Nat, k ≠ 0 →
      ((Nat.digits 10 k).map Nat.digitChar).reverse ≠ ['0'] := by
    intro k hk hrev
    have hl : (Nat.digits 10 k).map Nat.digitChar = ['0'] := by
      have := congrArg List.reverse hrev
      simpa using this
    rcases hd : Nat.digits 10 k with _ | ⟨d, ds⟩
    · rw [hd] at hl; simp at hl
    · rw [hd] at hl
      simp only [List.map_cons, List.cons.injEq] at hl
      have hds : ds = [] := by
        have := hl.2
        cases ds <;> simp_all
      have hd10 : d < 10 := Nat.digits_lt_base (by norm_num) (by rw [hd]; simp)
      have hd0 : d = 0 := digitChar_inj_lt10 d hd10 0 (by norm_num) (by simpa using hl.1)
      have h5 := Nat.ofDigits_digits 10 k
      rw [hd, hds, hd0] at h5
      simp [Nat.ofDigits] at h5
      exact hk h5.symm
  by_cases hn : n = 0 <;> by_cases hm : m = 0
  · omega
  · rw [if_pos hn, if_neg hm] at h; exact absurd h.symm (key m hm)
  · rw [if_neg hn, if_pos hm] at h; exact absurd h (key n hn)
  · rw [if_neg hn, if_neg hm] at h
    have h2 := List.reverse_injective h
    have h3 := digit_lists_map_inj _ _
      (fun d hd => Nat.digits_lt_base (by norm_num) hd)
      (fun d hd => Nat.digits_lt_base (by norm_num) hd) h2
    calc n = Nat.ofDigits 10 (Nat.digits 10 n) := (Nat.ofDigits_digits 10 n).symm
    _ = Nat.ofDigits 10 (Nat.digits 10 m) := by rw [h3]
    _ = m := Nat.ofDigits_digits 10 m

theorem filterMap_if_nodup {α β : Type} (h : Nat → β) (hinj : Function.Injective h)
    (p : α → Bool) :
    ∀ l : List (Nat × α), (l.map Prod.fst).Nodup →
      (l.filterMap fun a => if p a.2 then some (h a.1) else none).Nodup := by
  intro l
  induction l with
  | nil => simp
  | cons a t ih =>
    intro hnd
    simp only [List.map_cons, List.nodup_cons] at hnd
    by_cases hp : p a.2
    · rw [List.filterMap_cons, if_pos hp]
      refine List.nodup_cons.mpr ⟨?_, ih hnd.2⟩
      intro hmem
      rw [List.mem_filterMap] at hmem
      obtain ⟨x, hx, hfx⟩ := hmem
      by_cases hpx : p x.2
      · rw [if_pos hpx] at hfx
        have : x.1 = a.1 := hinj (Option.some.inj hfx)
        exact hnd.1 (this ▸ List.mem_map_of_mem Prod.fst hx)
      · rw [if_neg hpx] at hfx
        exact Option.noConfusion hfx
    · rw [List.filterMap_cons, if_neg hp]
      exact ih hnd.2

theorem pyStrip_append_left_ne (x y : PyStr) (hx : pyStrip x ≠ []) :
    pyStrip (x ++ y) ≠ [] := by
  intro hxy
  apply hx
  rw [pyStrip_eq_nil_iff] at hxy ⊢
  intro c hc
  exact hxy c (List.mem_append.mpr (Or.inl hc))

theorem create_text_chunks_mem (split_text : PyStr → List PyStr)
    (text doc fn : PyStr) (c : PyDocument)
    (hc : c ∈ DocumentService.create_text_chunks split_text text doc fn) :
    metaGet c.metadata "document_id".data = some (.str doc)
    ∧ pyStrip c.page_content ≠ []
    ∧ ∃ i, metaGet c.metadata "chunk_index".data = some (.nat i)
        ∧ metaGet c.metadata "chunk_id".data
            = some (.str (doc ++ "_text_".data ++ pyNatRepr i)) := by
  unfold DocumentService.create_text_chunks at hc
  by_cases ht : pyStrip text = []
  · rw [if_pos ht] at hc
    simp at hc
  · rw [if_neg ht] at hc
    rw [List.mem_filterMap] at hc
    obtain ⟨ic, hmem, hf⟩ := hc
    by_cases hcond : pyStrip ic.2 ≠ []
    · rw [if_pos hcond] at hf
      obtain rfl := Option.some.inj hf
      exact ⟨rfl, hcond, ic.1, rfl, rfl⟩
    · rw [if_neg hcond] at hf
      exact Option.noConfusion hf

theorem create_text_chunks_ids_nodup (split_text : PyStr → List PyStr)
    (text doc fn : PyStr) :
    ((DocumentService.create_text_chunks split_text text doc fn).map
        (fun c => metaGet c.metadata "chunk_id".data)).Nodup := by
  unfold DocumentService.create_text_chunks
  by_cases ht : pyStrip text = []
  · rw [if_pos ht]; simp
  · rw [if_neg ht]
    rw [List.map_filterMap]
    have heq : (fun (ic : Nat × PyStr) =>
        Option.map (fun c => metaGet c.metadata "chunk_id".data)
          (if pyStrip ic.2 ≠ [] then
            some (⟨ic.2,
              [("document_id".data, .str doc),
               ("filename".data, .str fn),
               ("chunk_index".data, .nat ic.1),
               ("chunk_type".data, .str "text".data),
               ("chunk_id".data, .str (doc ++ "_text_".data ++ pyNatRepr ic.1))]⟩
              : PyDocument)
          else none))
        = fun (ic : Nat × PyStr) =>
            if (fun s => decide (pyStrip s ≠ [])) ic.2 then
              some ((fun i => some (MetaVal.str (doc ++ "_text_".data ++ pyNatRepr i))) ic.1)
            else none := by
      funext ic
      by_cases hcond : pyStrip ic.2 ≠ []
      · rw [if_pos hcond, if_pos (by simpa using hcond)]
        rfl
      · rw [if_neg hcond, if_neg (by simpa using hcond)]
        rfl
    rw [heq]
    exact filterMap_if_nodup
      (fun i => some (MetaVal.str (doc ++ "_text_".data ++ pyNatRepr i)))
      (fun a b hab => by
        simp only [Option.some.injEq, MetaVal.str.injEq] at hab
        exact pyNatRepr_injective (List.append_cancel_left hab))
      (fun s => decide (pyStrip s ≠ []))
      (split_text text).enum
      (by rw [List.enum_map_fst]; exact List.nodup_range _)

theorem split_table_mem (text doc fn : PyStr) (B : Nat)
    (header delimiter : PyStr) (data_rows : List PyStr)
    (h : (pySplitlines (pyStrip text)).filter (fun ln => decide (pyStrip ln ≠ []))
      = header :: delimiter :: data_rows)
    (hne : data_rows ≠ []) (c : PyDocument)
    (hc : c ∈ DocumentService.split_markdown_table_by_rows text doc fn B true) :
    metaGet c.metadata "document_id".data = some (.str doc)
    ∧ pyStrip c.page_content ≠ []
    ∧ ∃ s, metaGet c.metadata "row_start".data = some (.nat s)
        ∧ metaGet c.metadata "chunk_id".data
            = some (.str (doc ++ "_text_".data ++ pyNatRepr s)) := by
  obtain ⟨r, rs, rfl⟩ := List.exists_cons_of_ne_nil hne
  have hout : DocumentService.split_markdown_table_by_rows text doc fn B true
      = (DocumentService.pyRange0 (r :: rs : List PyStr).length B).map
          (DocumentService.table_chunk header delimiter (r :: rs) doc fn B true) := by
    unfold DocumentService.split_markdown_table_by_rows
    rw [h]
    rfl
  rw [hout, List.mem_map] at hc
  obtain ⟨start, _, rfl⟩ := hc
  have hhead : pyStrip header ≠ [] := by
    have hmem : header ∈ (pySplitlines (pyStrip text)).filter
        (fun ln => decide (pyStrip ln ≠ [])) := by
      rw [h]; exact List.mem_cons_self _ _
    have := List.of_mem_filter hmem
    simpa using this
  refine ⟨rfl, ?_, start, rfl, rfl⟩
  show pyStrip (DocumentService.table_chunk header delimiter (r :: rs) doc fn B
      true start).page_content ≠ []
  have hcontent : (DocumentService.table_chunk header delimiter (r :: rs) doc fn B
      true start).page_content
      = header ++ ("\n".data ++ pyJoin "\n".data (delimiter ::
          (((r :: rs) : List PyStr).drop start).take B)) := by
    simp only [DocumentService.table_chunk]
    rw [show ([header, delimiter] : List PyStr) ++ (((r :: rs) : List PyStr).drop start).take B
        = header :: delimiter :: (((r :: rs) : List PyStr).drop start).take B from rfl]
    rw [pyJoin_cons_cons]
    simp [List.append_assoc]
  rw [hcontent]
  exact pyStrip_append_left_ne _ _ hhead

theorem split_table_ids_nodup (text doc fn : PyStr) (B : Nat) (hB : 0 < B)
    (header delimiter : PyStr) (data_rows : List PyStr)
    (h : (pySplitlines (pyStrip text)).filter (fun ln => decide (pyStrip ln ≠ []))
      = header :: delimiter :: data_rows)
    (hne : data_rows ≠ []) :
    ((DocumentService.split_markdown_table_by_rows text doc fn B true).map
        (fun c => metaGet c.metadata "chunk_id".data)).Nodup := by
  obtain ⟨r, rs, rfl⟩ := List.exists_cons_of_ne_nil hne
  have hout : DocumentService.split_markdown_table_by_rows text doc fn B true
      = (DocumentService.pyRange0 (r :: rs : List PyStr).length B).map
          (DocumentService.table_chunk header delimiter (r :: rs) doc fn B true) := by
    unfold DocumentService.split_markdown_table_by_rows
    rw [h]
    rfl
  rw [hout, List.map_map, DocumentService.pyRange0, List.map_map]
  apply List.Nodup.map ?hinj (List.nodup_range _)
  intro a b hab
  simp only [Function.comp_apply] at hab
  have hab2 : some (MetaVal.str (doc ++ "_text_".data ++ pyNatRepr (a * B)))
      = some (MetaVal.str (doc ++ "_text_".data ++ pyNatRepr (b * B))) := hab
  simp only [Option.some.injEq, MetaVal.str.injEq] at hab2
  have := pyNatRepr_injective (List.append_cancel_left hab2)
  exact Nat.eq_of_mul_eq_mul_right hB this

/-- C7 counterexample: (a) the degenerate table input `" "` (fewer than 2
non-blank lines) produces a single chunk whose metadata has no
`document_id` key and whose content is non-empty whitespace; (b) a prose
chunk and a table chunk of the same document both receive chunk_id
`d_text_0` although their kinds differ (`text` vs `table_type`), because
the table path also uses the literal `_text_` tag — so chunk ids are
neither always document-carrying, never-blank, nor distinct across kinds
of the same document. -/
theorem chunk_identity_counterexample :
    DocumentService.split_markdown_table_by_rows " ".data "d".data "f".data 50 true
      = [⟨" ".data, [("split".data, MetaVal.str "none".data)]⟩]
    ∧ metaGet [("split".data, MetaVal.str "none".data)] "document_id".data = none
    ∧ pyStrip " ".data = [] ∧ (" ".data : PyStr) ≠ []
    ∧ (DocumentService.create_text_chunks (fun t => [t]) "x".data "d".data "f".data).map
        (fun c => (metaGet c.metadata "chunk_id".data, metaGet c.metadata "chunk_type".data))
      = [(some (.str "d_text_0".data), some (.str "text".data))]
    ∧ (DocumentService.split_markdown_table_by_rows "a|b\n-|-\nc|d".data "d".data
          "f".data 50 true).map
        (fun c => (metaGet c.metadata "chunk_id".data, metaGet c.metadata "chunk_type".data))
      = [(some (.str "d_text_0".data), some (.str "table_type".data))] := by decide

/-- C7 as amended: every prose chunk carries its `document_id`,
non-whitespace content, and a chunk id derived deterministically from the
document id and its splitter position via the `_text_` tag, and the
chunk ids of one prose chunking are pairwise distinct; every table chunk
of a non-degenerate table likewise carries its `document_id`,
non-whitespace content (it starts with the non-blank header), and a
chunk id derived from the document id and its `row_start` via the same
`_text_` tag (not from its kind), with the ids of one table chunking
pairwise distinct.  (Degenerate table inputs are excluded: they produce
a single kindless chunk with no `document_id`.) -/
theorem chunk_identity_amended :
    (∀ split_text text doc fn,
        ∀ c ∈ DocumentService.create_text_chunks split_text text doc fn,
        metaGet c.metadata "document_id".data = some (.str doc)
        ∧ pyStrip c.page_content ≠ []
        ∧ ∃ i, metaGet c.metadata "chunk_index".data = some (.nat i)
            ∧ metaGet c.metadata "chunk_id".data
                = some (.str (doc ++ "_text_".data ++ pyNatRepr i)))
    ∧ (∀ split_text text doc fn,
        ((DocumentService.create_text_chunks split_text text doc fn).map
          (fun c => metaGet c.metadata "chunk_id".data)).Nodup)
    ∧ (∀ text doc fn B header delimiter data_rows, 0 < B →
        (pySplitlines (pyStrip text)).filter (fun ln => decide (pyStrip ln ≠ []))
          = header :: delimiter :: data_rows →
        data_rows ≠ [] →
        (∀ c ∈ DocumentService.split_markdown_table_by_rows text doc fn B true,
            metaGet c.metadata "document_id".data = some (.str doc)
            ∧ pyStrip c.page_content ≠ []
            ∧ ∃ s, metaGet c.metadata "row_start".data = some (.nat s)
                ∧ metaGet c.metadata "chunk_id".data
                    = some (.str (doc ++ "_text_".data ++ pyNatRepr s)))
        ∧ ((DocumentService.split_markdown_table_by_rows text doc fn B true).map
            (fun c => metaGet c.metadata "chunk_id".data)).Nodup) :=
  ⟨fun split_text text doc fn c hc =>
      create_text_chunks_mem split_text text doc fn c hc,
   fun split_text text doc fn =>
      create_text_chunks_ids_nodup split_text text doc fn,
   fun text doc fn B header delimiter data_rows hB h hne =>
      ⟨fun c hc => split_table_mem text doc fn B header delimiter data_rows h hne c hc,
       split_table_ids_nodup text doc fn B hB header delimiter data_rows h hne⟩⟩

/-- Witness for `chunk_identity_amended`: the one-row table
`a|b / -|- / c|d` chunked with `rows_per_chunk = 1` has pairwise-distinct
chunk ids. -/
theorem chunk_identity_amended_witness :
    ((DocumentService.split_markdown_table_by_rows "a|b\n-|-\nc|d".data "d".data
        "f".data 1 true).map
      (fun c => metaGet c.metadata "chunk_id".data)).Nodup :=
  (chunk_identity_amended.2.2 "a|b\n-|-\nc|d".data "d".data "f".data 1
    "a|b".data "-|-".data ["c|d".data] (by decide) (by decide) (by decide)).2
